import Mathlib

/-!
# OpenSMOKE++ Plastics: the ODE system object of the polymer devolatilization model

A shallow embedding of `source/Polypropylene_ODESystem.h` (class `PE_ODESystemObject`):
the derivative evaluator `GetFunctions` and the step reporter / boundary monitor `PrintStep`.

* `double` values are read over the exact rationals, with one extra value for the result of a
  division by zero (see `Double`).
* `Eigen::VectorXd` is a list of such values.
* The two collaborators whose headers are not part of this file (`PolyethyleneKinetics`, reached
  through the global pointer `ptPE`, and `ThermogravimetricAnalysis`, reached through `tg_`) are
  records of uninterpreted operations.
* `std::cout` is the sequence of items inserted into it. Each `std::ofstream` member is described
  by the sequence of records `PrintStep` inserts into it and by the state of the file behind it
  (open or closed, failed or good, lines that reached the file); text formatting (`setw`,
  `setprecision`, `scientific`, `left`) is not modelled.
-/

set_option linter.unusedVariables false

namespace OpenSMOKEpp

/-! ## Numbers and vectors -/

/-- A C++ `double`, read over exact arithmetic: `finite q` is the number `q`; `nonfinite` stands
    for the value of a division by zero (IEEE `Inf`/`NaN`), which has no real value and which
    every later operation propagates. -/
inductive Double where
  | finite (q : ℚ)
  | nonfinite
  deriving DecidableEq

namespace Double

/-- Addition of doubles (`a + b`). -/
def add : Double → Double → Double
  | finite x, finite y => finite (x + y)
  | _, _ => nonfinite

/-- Multiplication of doubles (`a * b`). -/
def mul : Double → Double → Double
  | finite x, finite y => finite (x * y)
  | _, _ => nonfinite

/-- Division of doubles (`a / b`): a division by zero has no finite value. -/
def div : Double → Double → Double
  | finite x, finite y => if y = 0 then nonfinite else finite (x / y)
  | _, _ => nonfinite

/-- Comparison `a <= b` of doubles: false as soon as one side is not a number. -/
def le : Double → Double → Prop
  | finite x, finite y => x ≤ y
  | _, _ => False

instance : Add Double := ⟨add⟩
instance : Mul Double := ⟨mul⟩
instance : Div Double := ⟨div⟩
instance : LE Double := ⟨le⟩
instance (k : Nat) : OfNat Double k := ⟨finite (k : ℚ)⟩

instance (a b : Double) : Decidable (a ≤ b) :=
  match a, b with
  | finite x, finite y => inferInstanceAs (Decidable (x ≤ y))
  | finite _, nonfinite => isFalse (fun h => h)
  | nonfinite, _ => isFalse (fun h => h)

end Double

/-- An `Eigen::VectorXd`. -/
abbrev VectorXd := List Double

/-- The Eigen expression `v / s` (coefficient-wise quotient by a scalar). -/
def VectorXd.divScalar (v : VectorXd) (s : Double) : VectorXd := v.map (fun x => x / s)

/-- The Eigen expression `v * s` (coefficient-wise product by a scalar). -/
def VectorXd.mulScalar (v : VectorXd) (s : Double) : VectorXd := v.map (fun x => x * s)

/-! ## Collaborators -/

/-- The interface of `ThermogravimetricAnalysis` used through `tg_`: the temperature and pressure
    programs, the initial mass, the lookup from temperature to chain-length boundary and the
    boiling temperature of a chain length. These are read-only queries of an immutable object. -/
structure ThermogravimetricAnalysis where
  T : Double → Double
  P : Double → Double
  InitialMass : Double
  SearchForLC : Double → Int
  BoilingTemperature : Int → Double

/-- The interface of `opensmokepp::plastics::PolyethyleneKinetics` used through `ptPE`, over an
    abstract type `K` of states of the kinetics object. The getters, the aggregation calls and
    `LiquidDensity` are read-only queries of the state; `SetMinNumberOfUnits`, `SetStatus`,
    `UpdateInitialAccelerationCoefficient`, `KineticConstants` and `FormationRates` update the
    object and return its new state. `Sum` and `SumMW` receive their three result variables by
    reference, so they take the values those variables hold at the call. -/
structure PolyethyleneKinetics (K : Type) where
  MaxNumberOfUnits : K → Int
  MinNumberOfUnits : K → Int
  SetMinNumberOfUnits : K → Int → K
  LiquidDensity : K → Double → Double
  SumGas : K → VectorXd → Double
  SumLiquid : K → VectorXd → Double
  SumGasMW : K → VectorXd → Double
  SumLiquidMW : K → VectorXd → Double
  Sum : K → VectorXd → Double → Double → Double → Double × Double × Double
  SumMW : K → VectorXd → Double → Double → Double → Double × Double × Double
  SetStatus : K → Double → Double → VectorXd → K
  UpdateInitialAccelerationCoefficient : K → Double → Double → K
  KineticConstants : K → K
  FormationRates : K → K
  R : K → VectorXd

/-! ## State -/

/-- One data row of `GasDistributionMass.out` or `GasDistributionMoles.out`: the eleven fields in
    the order they are inserted into the stream. -/
structure Record where
  step : Int
  time : Double
  T : Double
  LC : Int
  res_liq : Double
  liq : Double
  gas : Double
  tot : Double
  P_frac : Double
  O_frac : Double
  D_frac : Double
  deriving DecidableEq

/-- What `PrintStep` inserts into `std::cout`: the per-step line and the announcement of a new
    boiling temperature (old and new value). -/
inductive ConsoleItem where
  | stepLine (step : Int) (t T : Double) (LC : Int) (resL mL mG mTot : Double)
  | newBoilingTemperature (old new : Double)
  deriving DecidableEq

/-- One line of an output file: the header line of column titles or a data row. -/
inductive FileLine where
  | header (titles : List String)
  | row (r : Record)
  deriving DecidableEq

/-- The file side of a `std::ofstream`: whether a file is open, whether the stream is in a
    failed state, and the lines that reached the file, oldest first. -/
structure OfStream where
  is_open : Bool
  fail : Bool
  content : List FileLine
  deriving DecidableEq

/-- The call `open(name, std::ios::out)`; `ok` tells whether the operating system grants the
    file. On a stream that is already open the call fails; a successful call truncates the file
    and clears the failure state. -/
def OfStream.open (s : OfStream) (ok : Bool) : OfStream :=
  if s.is_open then { s with fail := true }
  else if ok then { is_open := true, fail := false, content := [] }
  else { s with fail := true }

/-- Insertion of one line (`<< ... << std::endl`): the line reaches the file when the stream is
    open and good; otherwise nothing is written and the stream is failed. -/
def OfStream.insert (s : OfStream) (l : FileLine) : OfStream :=
  if s.is_open && !s.fail then { s with content := s.content ++ [l] }
  else { s with fail := true }

/-- The call `close()`. -/
def OfStream.close (s : OfStream) : OfStream :=
  if s.is_open then { s with is_open := false } else { s with fail := true }

/-- The data members of `PE_ODESystemObject`. The C++ `int step_` is an unbounded integer here
    (signed overflow is undefined in C++ and outside this model). Each `std::ofstream` member
    has two fields: `fDistMass_` / `fDistMoles_` list the records `PrintStep` inserted into the
    stream object so far, oldest first, whether or not a file took them; `fDistMass_file` /
    `fDistMoles_file` hold the state of the file behind the stream. -/
structure PE_ODESystemObject where
  number_of_equations_ : Nat
  step_ : Int
  c_ : VectorXd
  fDistMass_ : List Record
  fDistMoles_ : List Record
  fDistMass_file : OfStream
  fDistMoles_file : OfStream

/-- Everything the two member functions read or write: the object itself, the kinetics object
    behind the global `ptPE`, and the console. -/
structure World (K : Type) where
  ode : PE_ODESystemObject
  ptPE : K
  cout : List ConsoleItem

variable {K : Type}

/-! ## Member functions -/

/-- The constructor `PE_ODESystemObject()`: sizes the system from the kinetics object (the
    `unsigned int` keeps the value modulo `2^32`) and resets the step counter. The two streams
    are default-constructed: no file is open and nothing has been inserted. -/
def PE_ODESystemObject.new (ptPE : PolyethyleneKinetics K) (k : K) : PE_ODESystemObject :=
  { number_of_equations_ := ((3 * ptPE.MaxNumberOfUnits k + 34) % 4294967296).toNat
    step_ := 0
    c_ := []
    fDistMass_ := []
    fDistMoles_ := []
    fDistMass_file := { is_open := false, fail := false, content := [] }
    fDistMoles_file := { is_open := false, fail := false, content := [] } }

/-- The column titles `PrepareOutputFiles` writes to `GasDistributionMass.out`. -/
def massTitles : List String :=
  ["#(1)", "time[s](2)", "T[K](3)", "LC[-](4)", "res_liq(5)", "mass_liq[g](6)",
   "mass_gas[g](7)", "mass_tot[g](8)", "P_w(9)", "O_w(10)", "D_w(11)"]

/-- The column titles `PrepareOutputFiles` writes to `GasDistributionMoles.out`. -/
def molesTitles : List String :=
  ["#(1)", "time[s](2)", "T[K](3)", "LC[-](4)", "res_liq(5)", "mass_liq[g](6)",
   "mass_gas[g](7)", "mass_tot[g](8)", "P_x(9)", "O_x(10)", "D_x(11)"]

/-- The member function `PrepareOutputFiles()`: opens the two files and writes their header
    lines; `okMass` and `okMoles` tell whether the operating system grants each file (the code
    does not check). -/
def PE_ODESystemObject.PrepareOutputFiles (o : PE_ODESystemObject) (okMass okMoles : Bool) :
    PE_ODESystemObject :=
  { o with
    fDistMass_file := (o.fDistMass_file.open okMass).insert (FileLine.header massTitles)
    fDistMoles_file := (o.fDistMoles_file.open okMoles).insert (FileLine.header molesTitles) }

/-- The member function `CloseOutputFiles()`. -/
def PE_ODESystemObject.CloseOutputFiles (o : PE_ODESystemObject) : PE_ODESystemObject :=
  { o with
    fDistMass_file := o.fDistMass_file.close
    fDistMoles_file := o.fDistMoles_file.close }

/-- The member function `GetFunctions(t, n, dn_over_dx)`: returns the new world and the vector
    written to `dn_over_dx`. -/
def GetFunctions (ptPE : PolyethyleneKinetics K) (tg_ : ThermogravimetricAnalysis)
    (w : World K) (t : Double) (n : VectorXd) : World K × VectorXd :=
  let T := tg_.T t
  let P := tg_.P t
  let W := tg_.InitialMass
  let nG := ptPE.SumGas w.ptPE n
  let nL := ptPE.SumLiquid w.ptPE n
  let mG := ptPE.SumGasMW w.ptPE n
  let mL := ptPE.SumLiquidMW w.ptPE n
  let VL := (mL / 1000) / ptPE.LiquidDensity w.ptPE T
  let c_ := n.divScalar (VL * 1000)
  let k1 := ptPE.SetStatus w.ptPE T P c_
  let k2 := ptPE.UpdateInitialAccelerationCoefficient k1 (VL * 1000) W
  let k3 := ptPE.KineticConstants k2
  let k4 := ptPE.FormationRates k3
  ({ w with ode := { w.ode with c_ := c_ }, ptPE := k4 }, (ptPE.R k4).mulScalar (VL * 1000))

/-- The member function `PrintStep(t, n, dn_over_dx)`. -/
def PrintStep (ptPE : PolyethyleneKinetics K) (tg_ : ThermogravimetricAnalysis)
    (w : World K) (t : Double) (n : VectorXd) (dn_over_dx : VectorXd) : World K :=
  let step_ := w.ode.step_ + 1
  let T := tg_.T t
  let P := tg_.P t
  let W := tg_.InitialMass
  let N := ptPE.MaxNumberOfUnits w.ptPE
  let LC := ptPE.MinNumberOfUnits w.ptPE
  let rho := ptPE.LiquidDensity w.ptPE T
  let mG := ptPE.SumGasMW w.ptPE n
  let mL := ptPE.SumLiquidMW w.ptPE n
  let nG := ptPE.SumGas w.ptPE n
  let nL := ptPE.SumLiquid w.ptPE n
  let VL := mL / rho
  let resL := mL / W
  let c_ := n.divScalar VL
  let cout1 := w.cout ++ [ConsoleItem.stepLine step_ t T LC resL mL mG (mL + mG)]
  let moles := ptPE.Sum w.ptPE n 0 0 0
  let P_moles := moles.1
  let O_moles := moles.2.1
  let D_moles := moles.2.2
  let T_moles := P_moles + O_moles + D_moles
  let mass := ptPE.SumMW w.ptPE n 0 0 0
  let P_mass := mass.1
  let O_mass := mass.2.1
  let D_mass := mass.2.2
  let T_mass := P_mass + O_mass + D_mass
  let mol_par := P_moles / T_moles
  let mol_ole := O_moles / T_moles
  let mol_dio := D_moles / T_moles
  let mas_par := P_mass / T_mass
  let mas_ole := O_mass / T_mass
  let mas_dio := D_mass / T_mass
  let rowMass : Record :=
    { step := step_, time := t, T := T, LC := LC, res_liq := resL, liq := mL, gas := mG,
      tot := mL + mG, P_frac := mas_par, O_frac := mas_ole, D_frac := mas_dio }
  let fDistMass_ := w.ode.fDistMass_ ++ [rowMass]
  let fDistMass_file := w.ode.fDistMass_file.insert (FileLine.row rowMass)
  let rowMoles : Record :=
    { step := step_, time := t, T := T, LC := LC, res_liq := resL, liq := nL, gas := nG,
      tot := nL + nG, P_frac := mol_par, O_frac := mol_ole, D_frac := mol_dio }
  let fDistMoles_ := w.ode.fDistMoles_ ++ [rowMoles]
  let fDistMoles_file := w.ode.fDistMoles_file.insert (FileLine.row rowMoles)
  let ode1 : PE_ODESystemObject :=
    { w.ode with
      step_ := step_, c_ := c_, fDistMass_ := fDistMass_, fDistMoles_ := fDistMoles_
      fDistMass_file := fDistMass_file, fDistMoles_file := fDistMoles_file }
  let LCnew := tg_.SearchForLC T
  let LCcurrent := ptPE.MinNumberOfUnits w.ptPE
  if LCnew ≠ LCcurrent then
    { ode := ode1
      ptPE := ptPE.SetMinNumberOfUnits w.ptPE LCnew
      cout := cout1 ++ [ConsoleItem.newBoilingTemperature
        (tg_.BoilingTemperature (LCcurrent - 1)) (tg_.BoilingTemperature (LCnew - 1))] }
  else
    { ode := ode1, ptPE := w.ptPE, cout := cout1 }

/-! ## Runs -/

/-- The arguments of one `PrintStep` call. -/
structure StepArgs where
  t : Double
  n : VectorXd
  dn_over_dx : VectorXd

/-- A run of consecutive `PrintStep` calls, in order. -/
def PrintSteps (ptPE : PolyethyleneKinetics K) (tg_ : ThermogravimetricAnalysis) :
    World K → List StepArgs → World K
  | w, [] => w
  | w, a :: rest => PrintSteps ptPE tg_ (PrintStep ptPE tg_ w a.t a.n a.dn_over_dx) rest

/-- The boundary values in effect along a run of `PrintStep` calls: before the first call, then
    after each call. -/
def boundaryTrace (ptPE : PolyethyleneKinetics K) (tg_ : ThermogravimetricAnalysis) :
    World K → List StepArgs → List Int
  | w, [] => [ptPE.MinNumberOfUnits w.ptPE]
  | w, a :: rest =>
      ptPE.MinNumberOfUnits w.ptPE ::
        boundaryTrace ptPE tg_ (PrintStep ptPE tg_ w a.t a.n a.dn_over_dx) rest

/-- A call made by the integrator: a derivative evaluation or a step report. -/
inductive Call where
  | getFunctions (t : Double) (n : VectorXd)
  | printStep (t : Double) (n : VectorXd) (dn_over_dx : VectorXd)

/-- The effect of one integrator call on the world. -/
def Call.apply (ptPE : PolyethyleneKinetics K) (tg_ : ThermogravimetricAnalysis)
    (w : World K) : Call → World K
  | .getFunctions t n => (GetFunctions ptPE tg_ w t n).1
  | .printStep t n dn_over_dx => PrintStep ptPE tg_ w t n dn_over_dx

/-- The effect of a sequence of integrator calls, in order. -/
def runCalls (ptPE : PolyethyleneKinetics K) (tg_ : ThermogravimetricAnalysis)
    (w : World K) (cs : List Call) : World K :=
  cs.foldl (Call.apply ptPE tg_) w

/-- The number of `PrintStep` calls in a sequence of integrator calls. -/
def countPrintSteps : List Call → Nat
  | [] => 0
  | .getFunctions _ _ :: cs => countPrintSteps cs
  | .printStep _ _ _ :: cs => countPrintSteps cs + 1

/-- The number of boundary-transition announcements in a console log. -/
def announcements : List ConsoleItem → Nat
  | [] => 0
  | .newBoilingTemperature _ _ :: l => announcements l + 1
  | .stepLine _ _ _ _ _ _ _ _ :: l => announcements l

/-- The number of places where a sequence of boundary values changes between two consecutive
    entries. -/
def changes : List Int → Nat
  | a :: b :: l => (if a ≠ b then 1 else 0) + changes (b :: l)
  | _ => 0

/-- The value SearchForLC(T(t)) at each call of a run. -/
def lookups (tg_ : ThermogravimetricAnalysis) (args : List StepArgs) : List Int :=
  args.map (fun a => tg_.SearchForLC (tg_.T a.t))

/-- The LC column of the records a run appended to a stream that held `before` records. -/
def newLC (before : List Record) (after : List Record) : List Int :=
  (after.drop before.length).map Record.LC

/-! ## A concrete kinetics object and temperature program

Used to instantiate the statements below at explicit inputs. The species vector lists, for chain
lengths 1, 2, ..., the paraffin, the olefin and the diolefin of that length. -/

/-- State of the concrete kinetics object. -/
structure DemoKinetics where
  maxUnits : Int
  minUnits : Int
  T : Double
  P : Double
  c : VectorXd
  accel : Double
  kappa : Double
  R : VectorXd
  deriving DecidableEq

/-- Sum of the entries selected by `sel`, weighted by `wt`, starting at species index `i`. -/
def DemoKinetics.total (sel : Nat → Bool) (wt : Nat → ℚ) : Nat → VectorXd → Double
  | _, [] => 0
  | i, x :: xs =>
      (if sel i then x * Double.finite (wt i) else 0) + DemoKinetics.total sel wt (i + 1) xs

/-- Chain length of the species at index `i`. -/
def DemoKinetics.units (i : Nat) : Int := (i / 3 : Nat) + 1

/-- Molecular weight (g/mol) of the species at index `i`. -/
def DemoKinetics.mw (i : Nat) : ℚ := 14 * ((i / 3 : Nat) + 1) + (2 - 2 * (i % 3 : Nat))

/-- The operations of the concrete kinetics object: species of chain length at least the
    boundary are liquid, the others gas; formation rates are first-order decay. -/
def demoKinetics : PolyethyleneKinetics DemoKinetics :=
  { MaxNumberOfUnits := fun k => k.maxUnits
    MinNumberOfUnits := fun k => k.minUnits
    SetMinNumberOfUnits := fun k v => { k with minUnits := v }
    LiquidDensity := fun _ _ => 760
    SumGas := fun k n =>
      DemoKinetics.total (fun i => decide (DemoKinetics.units i < k.minUnits)) (fun _ => 1) 0 n
    SumLiquid := fun k n =>
      DemoKinetics.total (fun i => decide (k.minUnits ≤ DemoKinetics.units i)) (fun _ => 1) 0 n
    SumGasMW := fun k n =>
      DemoKinetics.total (fun i => decide (DemoKinetics.units i < k.minUnits)) DemoKinetics.mw 0 n
    SumLiquidMW := fun k n =>
      DemoKinetics.total (fun i => decide (k.minUnits ≤ DemoKinetics.units i)) DemoKinetics.mw 0 n
    Sum := fun _ n p o d =>
      (p + DemoKinetics.total (fun i => i % 3 == 0) (fun _ => 1) 0 n,
       o + DemoKinetics.total (fun i => i % 3 == 1) (fun _ => 1) 0 n,
       d + DemoKinetics.total (fun i => i % 3 == 2) (fun _ => 1) 0 n)
    SumMW := fun _ n p o d =>
      (p + DemoKinetics.total (fun i => i % 3 == 0) DemoKinetics.mw 0 n,
       o + DemoKinetics.total (fun i => i % 3 == 1) DemoKinetics.mw 0 n,
       d + DemoKinetics.total (fun i => i % 3 == 2) DemoKinetics.mw 0 n)
    SetStatus := fun k T P c => { k with T := T, P := P, c := c }
    UpdateInitialAccelerationCoefficient := fun k V W => { k with accel := V / W }
    KineticConstants := fun k => { k with kappa := k.accel }
    FormationRates := fun k => { k with R := k.c.map (fun x => Double.finite (-1) * x) }
    R := fun k => k.R }

/-- A kinetics state with boundary `lc` and nothing set yet. -/
def demoState (lc : Int) : DemoKinetics :=
  { maxUnits := 2, minUnits := lc, T := 0, P := 0, c := [], accel := 0, kappa := 0, R := [] }

/-- A linear temperature ramp T(t) = t with a boundary lookup that is non-decreasing in
    temperature: chain length 1 up to 0 K, 2 above. -/
def demoRamp : ThermogravimetricAnalysis :=
  { T := fun t => t
    P := fun _ => 101325
    InitialMass := 10
    SearchForLC := fun T => if T ≤ 0 then 1 else 2
    BoilingTemperature := fun lc => Double.finite (100 * lc) }

/-- The same ramp with a boundary lookup that decreases with temperature. -/
def demoRampInverted : ThermogravimetricAnalysis :=
  { demoRamp with SearchForLC := fun T => if T ≤ 0 then 2 else 1 }

/-- A world around a freshly constructed object, with kinetics boundary `lc`. -/
def demoWorld (lc : Int) : World DemoKinetics :=
  { ode := PE_ODESystemObject.new demoKinetics (demoState lc), ptPE := demoState lc, cout := [] }

/-- A report call at time `t` for a state with one mole of the diolefin of chain length 1 and
    one mole of the paraffin of chain length 2. -/
def demoCall (t : Double) : StepArgs :=
  { t := t, n := [0, 0, 1, 1, 0, 0], dn_over_dx := [0, 0, 0, 0, 0, 0] }

/-- A short integrator trace: a derivative evaluation, a report, then another derivative
    evaluation. -/
def demoCalls : List Call :=
  [Call.getFunctions 0 [0, 0, 1, 1, 0, 0],
   Call.printStep 0 [0, 0, 1, 1, 0, 0] [0, 0, 0, 0, 0, 0],
   Call.getFunctions 1 [0, 0, 1, 1, 0, 0]]

/-- A world around a freshly constructed object whose two files `PrepareOutputFiles` has opened,
    with kinetics boundary `lc`. -/
def demoPrepared (lc : Int) : World DemoKinetics :=
  { ode := (PE_ODESystemObject.new demoKinetics (demoState lc)).PrepareOutputFiles true true
    ptPE := demoState lc
    cout := [] }

/-! ## Records and collaborator contracts used in the statements -/

/-- The record `PrintStep(t, n, ·)` inserts into `fDistMass_` when called in world `w`. -/
def PrintStep.massRecord (ptPE : PolyethyleneKinetics K) (tg_ : ThermogravimetricAnalysis)
    (w : World K) (t : Double) (n : VectorXd) : Record :=
  let mass := ptPE.SumMW w.ptPE n 0 0 0
  let T_mass := mass.1 + mass.2.1 + mass.2.2
  { step := w.ode.step_ + 1
    time := t
    T := tg_.T t
    LC := ptPE.MinNumberOfUnits w.ptPE
    res_liq := ptPE.SumLiquidMW w.ptPE n / tg_.InitialMass
    liq := ptPE.SumLiquidMW w.ptPE n
    gas := ptPE.SumGasMW w.ptPE n
    tot := ptPE.SumLiquidMW w.ptPE n + ptPE.SumGasMW w.ptPE n
    P_frac := mass.1 / T_mass
    O_frac := mass.2.1 / T_mass
    D_frac := mass.2.2 / T_mass }

/-- The record `PrintStep(t, n, ·)` inserts into `fDistMoles_` when called in world `w`. -/
def PrintStep.molesRecord (ptPE : PolyethyleneKinetics K) (tg_ : ThermogravimetricAnalysis)
    (w : World K) (t : Double) (n : VectorXd) : Record :=
  let moles := ptPE.Sum w.ptPE n 0 0 0
  let T_moles := moles.1 + moles.2.1 + moles.2.2
  { step := w.ode.step_ + 1
    time := t
    T := tg_.T t
    LC := ptPE.MinNumberOfUnits w.ptPE
    res_liq := ptPE.SumLiquidMW w.ptPE n / tg_.InitialMass
    liq := ptPE.SumLiquid w.ptPE n
    gas := ptPE.SumGas w.ptPE n
    tot := ptPE.SumLiquid w.ptPE n + ptPE.SumGas w.ptPE n
    P_frac := moles.1 / T_moles
    O_frac := moles.2.1 / T_moles
    D_frac := moles.2.2 / T_moles }

/-- Modelled from the spec: the header `PolyethyleneKinetics.h` is missing; the spec lists a
    "boundary getter/setter" among the consumed interfaces, so reading the boundary after
    `SetMinNumberOfUnits(lc)` gives `lc`. -/
def BoundaryAccessors (ptPE : PolyethyleneKinetics K) : Prop :=
  ∀ (k : K) (lc : Int), ptPE.MinNumberOfUnits (ptPE.SetMinNumberOfUnits k lc) = lc

/-- Modelled from the spec: the header `PolyethyleneKinetics.h` is missing; the spec says the
    boundary "is owned by the kinetics-model collaborator but is advanced only by this core's
    boundary-monitor logic", so the four updating methods that `GetFunctions` calls leave
    `MinNumberOfUnits` as it was. -/
structure KeepsBoundary (ptPE : PolyethyleneKinetics K) : Prop where
  setStatus : ∀ (k : K) (T P : Double) (c : VectorXd),
    ptPE.MinNumberOfUnits (ptPE.SetStatus k T P c) = ptPE.MinNumberOfUnits k
  updateInitialAccelerationCoefficient : ∀ (k : K) (V W : Double),
    ptPE.MinNumberOfUnits (ptPE.UpdateInitialAccelerationCoefficient k V W) =
      ptPE.MinNumberOfUnits k
  kineticConstants : ∀ (k : K),
    ptPE.MinNumberOfUnits (ptPE.KineticConstants k) = ptPE.MinNumberOfUnits k
  formationRates : ∀ (k : K),
    ptPE.MinNumberOfUnits (ptPE.FormationRates k) = ptPE.MinNumberOfUnits k

/-- A temperature program that is non-decreasing over time. -/
def NonDecreasingProgram (tg_ : ThermogravimetricAnalysis) : Prop :=
  ∀ t1 t2 : Double, t1 ≤ t2 → tg_.T t1 ≤ tg_.T t2

/-- A boundary lookup that is non-decreasing in temperature. -/
def NonDecreasingLookup (tg_ : ThermogravimetricAnalysis) : Prop :=
  ∀ T1 T2 : Double, T1 ≤ T2 → tg_.SearchForLC T1 ≤ tg_.SearchForLC T2

/-- Call times t_1 <= t_2 <= ... along a run. -/
def TimesNonDecreasing (args : List StepArgs) : Prop :=
  List.Chain' (fun a b => a.t ≤ b.t) args

/-- A non-decreasing sequence of boundary values. -/
def NonDecreasing (l : List Int) : Prop := List.Chain' (fun a b => a ≤ b) l

/-- What the caller of `GetFunctions` observes. -/
inductive Outcome (α : Type) where
  | returned (a : α)
  | failed (reason : String)

/-- The outcome of a call `GetFunctions(t, n, dn_over_dx)`: the function is `void`, has no
    `throw`, no exit and no status flag, so every call returns normally. -/
def GetFunctions.outcome (ptPE : PolyethyleneKinetics K) (tg_ : ThermogravimetricAnalysis)
    (w : World K) (t : Double) (n : VectorXd) : Outcome (World K × VectorXd) :=
  .returned (GetFunctions ptPE tg_ w t n)

end OpenSMOKEpp

/-! # Theorems -/

namespace OpenSMOKEpp

variable {K : Type}

/-! ## Arithmetic of doubles -/

namespace Double

theorem finite_add (x y : ℚ) : (finite x + finite y : Double) = finite (x + y) := rfl

theorem finite_mul (x y : ℚ) : (finite x * finite y : Double) = finite (x * y) := rfl

theorem finite_div (x y : ℚ) :
    (finite x / finite y : Double) = if y = 0 then nonfinite else finite (x / y) := rfl

theorem nonfinite_add (a : Double) : nonfinite + a = nonfinite := rfl

theorem add_nonfinite (a : Double) : a + nonfinite = nonfinite := by cases a <;> rfl

theorem nonfinite_mul (a : Double) : nonfinite * a = nonfinite := rfl

theorem mul_nonfinite (a : Double) : a * nonfinite = nonfinite := by cases a <;> rfl

theorem nonfinite_div (a : Double) : nonfinite / a = nonfinite := rfl

theorem div_nonfinite (a : Double) : a / nonfinite = nonfinite := by cases a <;> rfl

theorem ofNat_eq (k : Nat) : (OfNat.ofNat k : Double) = finite (k : ℚ) := rfl

theorem div_zero (a : Double) : a / finite 0 = nonfinite := by
  cases a <;> simp [finite_div, nonfinite_div]

/-- The litre-based and the cubic-metre-based quotient agree. -/
theorem div_litres (x mL rho : Double) :
    x / (mL / rho) = x / (((mL / 1000) / rho) * 1000) := by
  rcases x with x | _ <;> rcases mL with m | _ <;> rcases rho with r | _ <;>
    simp only [ofNat_eq, finite_div, finite_mul, nonfinite_div, div_nonfinite, nonfinite_mul]
  have h1000 : ((1000 : ℕ) : ℚ) ≠ 0 := by norm_num
  by_cases hr : r = 0
  · simp only [hr, h1000, if_true, if_false, finite_div, div_nonfinite, nonfinite_mul]
  · simp only [hr, h1000, if_false, finite_div, finite_mul]
    have e : m / (1000 : ℕ) / r * (1000 : ℕ) = m / r := by field_simp; ring
    rw [e]

/-- A zero liquid mass gives a liquid volume that is zero or, for a zero or undefined density,
    not a number. -/
theorem zero_volume (rho : Double) :
    (0 / 1000) / rho * 1000 = (0 : Double) ∨ (0 / 1000) / rho * 1000 = nonfinite := by
  rcases rho with r | _
  · by_cases hr : r = 0
    · right
      simp [ofNat_eq, finite_div, hr, nonfinite_mul]
    · left
      simp [ofNat_eq, finite_div, finite_mul, hr]
  · right
    simp [div_nonfinite, nonfinite_mul]

/-- Three shares of a total add up to one exactly when the total is a non-zero number. -/
theorem shares_sum (a b c : Double) :
    a / (a + b + c) + b / (a + b + c) + c / (a + b + c) = 1 ↔
      ∃ m : ℚ, a + b + c = finite m ∧ m ≠ 0 := by
  rcases a with a | _ <;> rcases b with b | _ <;> rcases c with c | _ <;>
    simp only [ofNat_eq, finite_add, finite_div, nonfinite_div, div_nonfinite, nonfinite_add,
      add_nonfinite]
  · by_cases h : a + b + c = 0
    · simp [h, nonfinite_add]
    · simp only [h, if_false, finite_add]
      have e : a / (a + b + c) + b / (a + b + c) + c / (a + b + c) = 1 := by field_simp
      simp [e, h]
  all_goals simp
end Double

/-! ## What one call does -/

theorem PrintStep_ode (ptPE : PolyethyleneKinetics K) (tg_ : ThermogravimetricAnalysis)
    (w : World K) (t : Double) (n dn : VectorXd) :
    (PrintStep ptPE tg_ w t n dn).ode =
      { w.ode with
        step_ := w.ode.step_ + 1
        c_ := n.divScalar (ptPE.SumLiquidMW w.ptPE n / ptPE.LiquidDensity w.ptPE (tg_.T t))
        fDistMass_ := w.ode.fDistMass_ ++ [PrintStep.massRecord ptPE tg_ w t n]
        fDistMoles_ := w.ode.fDistMoles_ ++ [PrintStep.molesRecord ptPE tg_ w t n]
        fDistMass_file :=
          w.ode.fDistMass_file.insert (FileLine.row (PrintStep.massRecord ptPE tg_ w t n))
        fDistMoles_file :=
          w.ode.fDistMoles_file.insert (FileLine.row (PrintStep.molesRecord ptPE tg_ w t n)) } := by
  unfold PrintStep
  dsimp only
  split <;> rfl

theorem PrintStep_ptPE (ptPE : PolyethyleneKinetics K) (tg_ : ThermogravimetricAnalysis)
    (w : World K) (t : Double) (n dn : VectorXd) :
    (PrintStep ptPE tg_ w t n dn).ptPE =
      if tg_.SearchForLC (tg_.T t) ≠ ptPE.MinNumberOfUnits w.ptPE then
        ptPE.SetMinNumberOfUnits w.ptPE (tg_.SearchForLC (tg_.T t))
      else w.ptPE := by
  unfold PrintStep
  dsimp only
  split <;> rfl

theorem PrintStep_cout (ptPE : PolyethyleneKinetics K) (tg_ : ThermogravimetricAnalysis)
    (w : World K) (t : Double) (n dn : VectorXd) :
    (PrintStep ptPE tg_ w t n dn).cout =
      w.cout ++
        (ConsoleItem.stepLine (w.ode.step_ + 1) t (tg_.T t) (ptPE.MinNumberOfUnits w.ptPE)
            (ptPE.SumLiquidMW w.ptPE n / tg_.InitialMass) (ptPE.SumLiquidMW w.ptPE n)
            (ptPE.SumGasMW w.ptPE n) (ptPE.SumLiquidMW w.ptPE n + ptPE.SumGasMW w.ptPE n) ::
          if tg_.SearchForLC (tg_.T t) ≠ ptPE.MinNumberOfUnits w.ptPE then
            [ConsoleItem.newBoilingTemperature
              (tg_.BoilingTemperature (ptPE.MinNumberOfUnits w.ptPE - 1))
              (tg_.BoilingTemperature (tg_.SearchForLC (tg_.T t) - 1))]
          else []) := by
  unfold PrintStep
  dsimp only
  split <;> simp

/-- After a step report the boundary is the looked-up one. -/
theorem PrintStep_boundary (ptPE : PolyethyleneKinetics K) (tg_ : ThermogravimetricAnalysis)
    (hacc : BoundaryAccessors ptPE) (w : World K) (t : Double) (n dn : VectorXd) :
    ptPE.MinNumberOfUnits (PrintStep ptPE tg_ w t n dn).ptPE = tg_.SearchForLC (tg_.T t) := by
  rw [PrintStep_ptPE]
  split
  · exact hacc _ _
  · rename_i h
    exact (not_not.mp h).symm

theorem announcements_append (l m : List ConsoleItem) :
    announcements (l ++ m) = announcements l + announcements m := by
  induction l with
  | nil => simp [announcements]
  | cons x l ih =>
    cases x
    · simp [announcements, ih]
    · simp [announcements, ih]
      omega

/-! ## C1 -/

/-- C1: for every time t and state vector n, GetFunctions returns R * (V_L * 1000)
    componentwise, where V_L = (SumLiquidMW(n) / 1000) / LiquidDensity(T(t)) and R is the
    formation-rate vector read from the kinetics object after its status was set to
    (T(t), P(t), conc), its acceleration coefficient updated with (V_L * 1000, W) and its rate
    constants and formation rates recomputed, with conc_i = n_i / (V_L * 1000) for every index i. -/
theorem GetFunctions_derivative (ptPE : PolyethyleneKinetics K)
    (tg_ : ThermogravimetricAnalysis) (w : World K) (t : Double) (n : VectorXd) :
    let V_L := (ptPE.SumLiquidMW w.ptPE n / 1000) / ptPE.LiquidDensity w.ptPE (tg_.T t)
    ∃ conc R : VectorXd,
      (∀ i : Nat, conc[i]? = (n[i]?).map (fun n_i => n_i / (V_L * 1000))) ∧
      R = ptPE.R (ptPE.FormationRates (ptPE.KineticConstants
            (ptPE.UpdateInitialAccelerationCoefficient
              (ptPE.SetStatus w.ptPE (tg_.T t) (tg_.P t) conc) (V_L * 1000) tg_.InitialMass))) ∧
      (∀ i : Nat, (GetFunctions ptPE tg_ w t n).2[i]? =
        (R[i]?).map (fun R_i => R_i * (V_L * 1000))) ∧
      (GetFunctions ptPE tg_ w t n).2.length = R.length := by
  intro V_L
  refine ⟨n.divScalar (V_L * 1000), _, ?_, rfl, ?_, ?_⟩
  · intro i
    simp [VectorXd.divScalar]
  · intro i
    simp [GetFunctions, VectorXd.mulScalar, V_L]
  · simp [GetFunctions, VectorXd.mulScalar]

/-! ## C2 -/

/-- C2: for every call PrintStep(t, n, dn) from any state, the phase boundary after the call
    equals SearchForLC(T(t)); when SearchForLC(T(t)) differs from the boundary in effect before
    the call the boundary is rewritten with SetMinNumberOfUnits and exactly one transition is
    announced (old and new boiling temperature), and otherwise the kinetics object is left
    unchanged and nothing is announced. -/
theorem PrintStep_boundary_monitor (ptPE : PolyethyleneKinetics K)
    (tg_ : ThermogravimetricAnalysis) (hacc : BoundaryAccessors ptPE)
    (w : World K) (t : Double) (n dn : VectorXd) :
    let LCnew := tg_.SearchForLC (tg_.T t)
    let LCcurrent := ptPE.MinNumberOfUnits w.ptPE
    let w1 := PrintStep ptPE tg_ w t n dn
    ptPE.MinNumberOfUnits w1.ptPE = LCnew ∧
    (LCnew ≠ LCcurrent →
      w1.ptPE = ptPE.SetMinNumberOfUnits w.ptPE LCnew ∧
      announcements w1.cout = announcements w.cout + 1 ∧
      w1.cout.getLast? = some (ConsoleItem.newBoilingTemperature
        (tg_.BoilingTemperature (LCcurrent - 1)) (tg_.BoilingTemperature (LCnew - 1)))) ∧
    (LCnew = LCcurrent →
      w1.ptPE = w.ptPE ∧ announcements w1.cout = announcements w.cout) ∧
    (announcements w1.cout = announcements w.cout + 1 ↔ LCnew ≠ LCcurrent) := by
  intro LCnew LCcurrent w1
  have hb : ptPE.MinNumberOfUnits w1.ptPE = LCnew := PrintStep_boundary ptPE tg_ hacc w t n dn
  have hne : LCnew ≠ LCcurrent →
      w1.ptPE = ptPE.SetMinNumberOfUnits w.ptPE LCnew ∧
      announcements w1.cout = announcements w.cout + 1 ∧
      w1.cout.getLast? = some (ConsoleItem.newBoilingTemperature
        (tg_.BoilingTemperature (LCcurrent - 1)) (tg_.BoilingTemperature (LCnew - 1))) := by
    intro h
    refine ⟨?_, ?_, ?_⟩
    · show (PrintStep ptPE tg_ w t n dn).ptPE = _
      rw [PrintStep_ptPE, if_pos h]
    · show announcements (PrintStep ptPE tg_ w t n dn).cout = _
      rw [PrintStep_cout, if_pos h, announcements_append]
      simp [announcements]
    · show (PrintStep ptPE tg_ w t n dn).cout.getLast? = _
      rw [PrintStep_cout, if_pos h]
      simp [List.getLast?_append, List.getLast?_cons_cons]
  have heq : LCnew = LCcurrent →
      w1.ptPE = w.ptPE ∧ announcements w1.cout = announcements w.cout := by
    intro h
    refine ⟨?_, ?_⟩
    · show (PrintStep ptPE tg_ w t n dn).ptPE = _
      rw [PrintStep_ptPE, if_neg (not_not.mpr h)]
    · show announcements (PrintStep ptPE tg_ w t n dn).cout = _
      rw [PrintStep_cout, if_neg (not_not.mpr h), announcements_append]
      simp [announcements]
  refine ⟨hb, hne, heq, ?_⟩
  constructor
  · intro h hE
    have := (heq hE).2
    omega
  · intro h
    exact (hne h).2.1

/-- C2 at an explicit input: a report at t = 1 from boundary 1 moves the boundary to the
    looked-up value 2 and announces one transition, from 0 K to 100 K. -/
theorem PrintStep_boundary_monitor_witness :
    BoundaryAccessors demoKinetics ∧
    demoRamp.SearchForLC (demoRamp.T 1) = 2 ∧
    demoKinetics.MinNumberOfUnits
      (PrintStep demoKinetics demoRamp (demoWorld 1) 1 [0, 0, 1] []).ptPE
        = demoRamp.SearchForLC (demoRamp.T 1) ∧
    (PrintStep demoKinetics demoRamp (demoWorld 1) 1 [0, 0, 1] []).cout.getLast? =
      some (ConsoleItem.newBoilingTemperature
        (demoRamp.BoilingTemperature (demoKinetics.MinNumberOfUnits (demoWorld 1).ptPE - 1))
        (demoRamp.BoilingTemperature (demoRamp.SearchForLC (demoRamp.T 1) - 1))) :=
  ⟨fun _ _ => rfl, by decide!,
    (PrintStep_boundary_monitor demoKinetics demoRamp (fun _ _ => rfl)
      (demoWorld 1) 1 [0, 0, 1] []).1,
    ((PrintStep_boundary_monitor demoKinetics demoRamp (fun _ _ => rfl)
      (demoWorld 1) 1 [0, 0, 1] []).2.1 (by decide!)).2.2⟩

/-! ## Runs of step reports -/

theorem boundaryTrace_eq (ptPE : PolyethyleneKinetics K) (tg_ : ThermogravimetricAnalysis)
    (hacc : BoundaryAccessors ptPE) (args : List StepArgs) :
    ∀ w : World K,
      boundaryTrace ptPE tg_ w args = ptPE.MinNumberOfUnits w.ptPE :: lookups tg_ args := by
  induction args with
  | nil => intro w; rfl
  | cons a rest ih =>
    intro w
    simp only [boundaryTrace, ih, PrintStep_boundary ptPE tg_ hacc, lookups, List.map_cons]

theorem PrintSteps_massLC (ptPE : PolyethyleneKinetics K) (tg_ : ThermogravimetricAnalysis)
    (hacc : BoundaryAccessors ptPE) (args : List StepArgs) :
    ∀ w : World K,
      (PrintSteps ptPE tg_ w args).ode.fDistMass_.map Record.LC =
        w.ode.fDistMass_.map Record.LC ++
          (ptPE.MinNumberOfUnits w.ptPE :: lookups tg_ args).dropLast := by
  induction args with
  | nil => intro w; simp [PrintSteps, lookups]
  | cons a rest ih =>
    intro w
    simp only [PrintSteps, ih, PrintStep_boundary ptPE tg_ hacc, PrintStep_ode, lookups,
      List.map_cons, List.map_append, List.dropLast_cons₂, List.append_assoc]
    rfl

theorem PrintSteps_molesLC (ptPE : PolyethyleneKinetics K) (tg_ : ThermogravimetricAnalysis)
    (hacc : BoundaryAccessors ptPE) (args : List StepArgs) :
    ∀ w : World K,
      (PrintSteps ptPE tg_ w args).ode.fDistMoles_.map Record.LC =
        w.ode.fDistMoles_.map Record.LC ++
          (ptPE.MinNumberOfUnits w.ptPE :: lookups tg_ args).dropLast := by
  induction args with
  | nil => intro w; simp [PrintSteps, lookups]
  | cons a rest ih =>
    intro w
    simp only [PrintSteps, ih, PrintStep_boundary ptPE tg_ hacc, PrintStep_ode, lookups,
      List.map_cons, List.map_append, List.dropLast_cons₂, List.append_assoc]
    rfl

theorem PrintSteps_announcements (ptPE : PolyethyleneKinetics K)
    (tg_ : ThermogravimetricAnalysis) (hacc : BoundaryAccessors ptPE) (args : List StepArgs) :
    ∀ w : World K,
      announcements (PrintSteps ptPE tg_ w args).cout =
        announcements w.cout + changes (ptPE.MinNumberOfUnits w.ptPE :: lookups tg_ args) := by
  induction args with
  | nil => intro w; simp [PrintSteps, lookups, changes]
  | cons a rest ih =>
    intro w
    simp only [PrintSteps, ih, PrintStep_boundary ptPE tg_ hacc, PrintStep_cout, lookups,
      List.map_cons, changes, announcements_append]
    by_cases h : tg_.SearchForLC (tg_.T a.t) = ptPE.MinNumberOfUnits w.ptPE
    · simp [h, announcements]
    · have h2 : ¬ ptPE.MinNumberOfUnits w.ptPE = tg_.SearchForLC (tg_.T a.t) :=
        fun e => h e.symm
      simp [h, h2, announcements]
      omega

theorem changes_dropLast_le : ∀ l : List Int, changes l.dropLast ≤ changes l
  | [] => by simp [changes]
  | [_] => by simp [changes]
  | [_, _] => by simp [changes]
  | a :: b :: c :: l => by
    have ih := changes_dropLast_le (b :: c :: l)
    simp only [List.dropLast_cons₂, changes] at ih ⊢
    omega

theorem lookups_dropLast (tg_ : ThermogravimetricAnalysis) (args : List StepArgs) :
    lookups tg_ args.dropLast = (lookups tg_ args).dropLast := by
  simp [lookups, List.map_dropLast]

/-! ## C3 -/

/-- C3 (amended): for every run of PrintStep calls at times t_1 <= t_2 <= ... under a
    temperature program that is non-decreasing over time, if moreover the boundary lookup
    SearchForLC is non-decreasing in temperature and the boundary the run began with is at most
    SearchForLC(T(t_1)), then the boundary value in effect after each PrintStep call is greater
    than or equal to the one in effect before it. -/
theorem boundary_monotone (ptPE : PolyethyleneKinetics K) (tg_ : ThermogravimetricAnalysis)
    (hacc : BoundaryAccessors ptPE) (hT : NonDecreasingProgram tg_)
    (hS : NonDecreasingLookup tg_) (w : World K) (args : List StepArgs)
    (htimes : TimesNonDecreasing args)
    (hstart : ∀ a ∈ args.head?, ptPE.MinNumberOfUnits w.ptPE ≤ tg_.SearchForLC (tg_.T a.t)) :
    NonDecreasing (boundaryTrace ptPE tg_ w args) := by
  rw [boundaryTrace_eq ptPE tg_ hacc]
  have hl : NonDecreasing (lookups tg_ args) := by
    unfold NonDecreasing lookups
    rw [List.chain'_map]
    exact List.Chain'.imp (fun a b hab => hS _ _ (hT _ _ hab)) htimes
  unfold NonDecreasing at hl ⊢
  rw [List.chain'_cons']
  refine ⟨?_, hl⟩
  intro y hy
  cases args with
  | nil => simp [lookups] at hy
  | cons a rest =>
    simp only [lookups, List.map_cons, List.head?_cons, Option.mem_def, Option.some.injEq] at hy
    subst hy
    exact hstart a (by simp)

/-- C3 at an explicit run: two reports at t = 0 and t = 1 starting from boundary 1. -/
theorem boundary_monotone_witness :
    NonDecreasing (boundaryTrace demoKinetics demoRamp (demoWorld 1) [demoCall 0, demoCall 1]) :=
  boundary_monotone demoKinetics demoRamp (fun _ _ => rfl) (fun _ _ h => h)
    (fun T1 T2 h => by
      show (if T1 ≤ 0 then (1 : Int) else 2) ≤ (if T2 ≤ 0 then (1 : Int) else 2)
      rcases T1 with x | _ <;> rcases T2 with y | _
      · have hxy : x ≤ y := h
        by_cases hy : (Double.finite y) ≤ 0
        · have hy' : y ≤ ((0 : ℕ) : ℚ) := hy
          have hx : (Double.finite x) ≤ 0 := show x ≤ ((0 : ℕ) : ℚ) from le_trans hxy hy'
          simp [hx, hy]
        · split <;> simp [hy]
      · exact absurd h (fun h => h)
      · exact absurd h (fun h => h)
      · exact absurd h (fun h => h))
    (demoWorld 1) [demoCall 0, demoCall 1]
    (by simp only [TimesNonDecreasing, List.chain'_cons, List.chain'_singleton, and_true]; decide!)
    (by decide!)

/-- C3 as stated fails: (1) under the non-decreasing ramp T(t) = t with a non-decreasing lookup,
    one report at t = 0 from boundary 2 lowers the boundary to 1; (2) under the same ramp with a
    lookup that decreases with temperature, reports at t = 0 and t = 1 from boundary 2 (the
    looked-up value at t = 0) lower the boundary to 1. -/
theorem boundary_not_monotone :
    (NonDecreasingProgram demoRamp ∧ TimesNonDecreasing [demoCall 0] ∧
      boundaryTrace demoKinetics demoRamp (demoWorld 2) [demoCall 0] = [2, 1] ∧
      ¬ NonDecreasing (boundaryTrace demoKinetics demoRamp (demoWorld 2) [demoCall 0])) ∧
    (NonDecreasingProgram demoRampInverted ∧ TimesNonDecreasing [demoCall 0, demoCall 1] ∧
      boundaryTrace demoKinetics demoRampInverted (demoWorld 2) [demoCall 0, demoCall 1]
        = [2, 2, 1] ∧
      ¬ NonDecreasing
        (boundaryTrace demoKinetics demoRampInverted (demoWorld 2) [demoCall 0, demoCall 1])) := by
  have e1 : boundaryTrace demoKinetics demoRamp (demoWorld 2) [demoCall 0] = [2, 1] := by
    decide!
  have e2 : boundaryTrace demoKinetics demoRampInverted (demoWorld 2) [demoCall 0, demoCall 1]
      = [2, 2, 1] := by decide!
  have t2 : TimesNonDecreasing [demoCall 0, demoCall 1] := by
    simp only [TimesNonDecreasing, List.chain'_cons, List.chain'_singleton, and_true]
    decide!
  refine ⟨⟨fun _ _ h => h, by simp [TimesNonDecreasing], e1, ?_⟩,
    ⟨fun _ _ h => h, t2, e2, ?_⟩⟩
  · rw [e1]
    simp [NonDecreasing]
  · rw [e2]
    simp [NonDecreasing]

/-! ## C6 -/

/-- C6 (amended): for every run of consecutive PrintStep calls along which SearchForLC(T(t_k))
    changes exactly once and which starts with the boundary equal to SearchForLC(T(t_1)), the
    run produces exactly one boundary-transition announcement, and the LC column of the records
    it emits (mass-basis and mole-basis alike) changes exactly as often as SearchForLC(T(t_k))
    changes along the run without its last call: between one pair of consecutive rows when the
    change happens before the last call, between none when it happens at the last call. -/
theorem single_crossing (ptPE : PolyethyleneKinetics K) (tg_ : ThermogravimetricAnalysis)
    (hacc : BoundaryAccessors ptPE) (w : World K) (args : List StepArgs)
    (hcross : changes (lookups tg_ args) = 1)
    (hstart : (lookups tg_ args).head? = some (ptPE.MinNumberOfUnits w.ptPE)) :
    announcements (PrintSteps ptPE tg_ w args).cout = announcements w.cout + 1 ∧
    changes (newLC w.ode.fDistMass_ (PrintSteps ptPE tg_ w args).ode.fDistMass_) =
      changes (lookups tg_ args.dropLast) ∧
    changes (newLC w.ode.fDistMoles_ (PrintSteps ptPE tg_ w args).ode.fDistMoles_) =
      changes (lookups tg_ args.dropLast) ∧
    changes (lookups tg_ args.dropLast) ≤ 1 := by
  have hcol : ∀ pre post : List Record, ∀ l : List Int,
      post.map Record.LC = pre.map Record.LC ++ l → newLC pre post = l := by
    intro pre post l h
    unfold newLC
    rw [List.map_drop, h]
    have hl : pre.length = (pre.map Record.LC).length := by simp
    rw [hl, List.drop_left]
  rw [hcol _ _ _ (PrintSteps_massLC ptPE tg_ hacc args w),
    hcol _ _ _ (PrintSteps_molesLC ptPE tg_ hacc args w),
    PrintSteps_announcements ptPE tg_ hacc args w, lookups_dropLast]
  generalize lookups tg_ args = s at hcross hstart
  generalize ptPE.MinNumberOfUnits w.ptPE = lc at hstart
  have hle := changes_dropLast_le s
  match s, hcross, hstart, hle with
  | [], hc, _, _ => simp [changes] at hc
  | [_], hc, _, _ => simp [changes] at hc
  | a :: b :: rest, hc, hs, hle =>
    simp only [List.head?_cons, Option.some.injEq] at hs
    subst hs
    refine ⟨?_, ?_, ?_, ?_⟩
    · simp only [changes] at hc ⊢
      simpa using hc
    · simp only [List.dropLast_cons₂]
      cases rest with
      | nil => simp [changes]
      | cons c rest => simp [changes]
    · simp only [List.dropLast_cons₂]
      cases rest with
      | nil => simp [changes]
      | cons c rest => simp [changes]
    · omega

/-- C6 at an explicit run: reports at t = 0, 1, 2 from boundary 1 cross the threshold once, at
    the second call. -/
theorem single_crossing_witness :
    changes (lookups demoRamp [demoCall 0, demoCall 1, demoCall 2]) = 1 ∧
    announcements
      (PrintSteps demoKinetics demoRamp (demoWorld 1) [demoCall 0, demoCall 1, demoCall 2]).cout
        = announcements (demoWorld 1).cout + 1 :=
  ⟨by decide!,
    (single_crossing demoKinetics demoRamp (fun _ _ => rfl) (demoWorld 1)
      [demoCall 0, demoCall 1, demoCall 2] (by decide!) (by decide!)).1⟩

/-- C6 as stated fails: (1) reports at t = 0 and t = 1 from boundary 1 cross the threshold once,
    at the last call: one announcement, but both rows show LC = 1, so the LC column never
    changes; (2) reports at t = 0, 1, 1 from boundary 2 cross the threshold once, yet two
    transitions are announced and the LC column changes twice. -/
theorem single_crossing_fails :
    (changes (lookups demoRamp [demoCall 0, demoCall 1]) = 1 ∧
      announcements (PrintSteps demoKinetics demoRamp (demoWorld 1) [demoCall 0, demoCall 1]).cout
        = 1 ∧
      newLC (demoWorld 1).ode.fDistMass_
        (PrintSteps demoKinetics demoRamp (demoWorld 1) [demoCall 0, demoCall 1]).ode.fDistMass_
        = [1, 1] ∧
      changes (newLC (demoWorld 1).ode.fDistMass_
        (PrintSteps demoKinetics demoRamp (demoWorld 1) [demoCall 0, demoCall 1]).ode.fDistMass_)
        = 0) ∧
    (changes (lookups demoRamp [demoCall 0, demoCall 1, demoCall 1]) = 1 ∧
      announcements
        (PrintSteps demoKinetics demoRamp (demoWorld 2)
          [demoCall 0, demoCall 1, demoCall 1]).cout = 2 ∧
      newLC (demoWorld 2).ode.fDistMass_
        (PrintSteps demoKinetics demoRamp (demoWorld 2)
          [demoCall 0, demoCall 1, demoCall 1]).ode.fDistMass_ = [2, 1, 2]) := by
  refine ⟨⟨by decide!, by decide!, by decide!, by decide!⟩, ⟨by decide!, by decide!, by decide!⟩⟩

/-! ## C4 -/

/-- C4 (amended): for every row emitted by PrintStep, the three mass fractions written to the
    mass-basis record sum to 1 exactly when the class total P_mass + O_mass + D_mass is a
    non-zero number, and the three mole fractions written to the mole-basis record sum to 1
    exactly when P_moles + O_moles + D_moles is a non-zero number; when the total is zero the
    fractions are quotients by zero and sum to no number. -/
theorem fractions_sum (ptPE : PolyethyleneKinetics K) (tg_ : ThermogravimetricAnalysis)
    (w : World K) (t : Double) (n dn : VectorXd) :
    let w1 := PrintStep ptPE tg_ w t n dn
    let mass := ptPE.SumMW w.ptPE n 0 0 0
    let moles := ptPE.Sum w.ptPE n 0 0 0
    let rowMass := PrintStep.massRecord ptPE tg_ w t n
    let rowMoles := PrintStep.molesRecord ptPE tg_ w t n
    w1.ode.fDistMass_ = w.ode.fDistMass_ ++ [rowMass] ∧
    w1.ode.fDistMoles_ = w.ode.fDistMoles_ ++ [rowMoles] ∧
    (rowMass.P_frac + rowMass.O_frac + rowMass.D_frac = 1 ↔
      ∃ m : ℚ, mass.1 + mass.2.1 + mass.2.2 = Double.finite m ∧ m ≠ 0) ∧
    (rowMoles.P_frac + rowMoles.O_frac + rowMoles.D_frac = 1 ↔
      ∃ m : ℚ, moles.1 + moles.2.1 + moles.2.2 = Double.finite m ∧ m ≠ 0) := by
  intro w1 mass moles rowMass rowMoles
  refine ⟨?_, ?_, ?_, ?_⟩
  · show (PrintStep ptPE tg_ w t n dn).ode.fDistMass_ = _
    rw [PrintStep_ode]
  · show (PrintStep ptPE tg_ w t n dn).ode.fDistMoles_ = _
    rw [PrintStep_ode]
  · exact Double.shares_sum mass.1 mass.2.1 mass.2.2
  · exact Double.shares_sum moles.1 moles.2.1 moles.2.2

/-- C4 at an explicit input: with one mole of the diolefin of chain length 1 the class totals
    are non-zero and both triples of fractions sum to 1. -/
theorem fractions_sum_witness :
    (PrintStep.massRecord demoKinetics demoRamp (demoWorld 1) 0 [0, 0, 1]).P_frac +
        (PrintStep.massRecord demoKinetics demoRamp (demoWorld 1) 0 [0, 0, 1]).O_frac +
        (PrintStep.massRecord demoKinetics demoRamp (demoWorld 1) 0 [0, 0, 1]).D_frac = 1 ∧
    (PrintStep.molesRecord demoKinetics demoRamp (demoWorld 1) 0 [0, 0, 1]).P_frac +
        (PrintStep.molesRecord demoKinetics demoRamp (demoWorld 1) 0 [0, 0, 1]).O_frac +
        (PrintStep.molesRecord demoKinetics demoRamp (demoWorld 1) 0 [0, 0, 1]).D_frac = 1 :=
  ⟨(fractions_sum demoKinetics demoRamp (demoWorld 1) 0 [0, 0, 1] []).2.2.1.mpr
      ⟨12, by decide!, by norm_num⟩,
    (fractions_sum demoKinetics demoRamp (demoWorld 1) 0 [0, 0, 1] []).2.2.2.mpr
      ⟨1, by decide!, by norm_num⟩⟩

/-- C4 as stated fails: for the all-zero state vector the class totals are zero, the row
    PrintStep emits holds three quotients by zero in each stream, and their sum is not 1. -/
theorem fractions_sum_fails :
    (PrintStep demoKinetics demoRamp (demoWorld 1) 0 [0, 0, 0] [0, 0, 0]).ode.fDistMass_.map
        (fun r => (r.P_frac, r.O_frac, r.D_frac, r.P_frac + r.O_frac + r.D_frac)) =
      [(Double.nonfinite, Double.nonfinite, Double.nonfinite, Double.nonfinite)] ∧
    (PrintStep demoKinetics demoRamp (demoWorld 1) 0 [0, 0, 0] [0, 0, 0]).ode.fDistMoles_.map
        (fun r => (r.P_frac, r.O_frac, r.D_frac, r.P_frac + r.O_frac + r.D_frac)) =
      [(Double.nonfinite, Double.nonfinite, Double.nonfinite, Double.nonfinite)] ∧
    Double.nonfinite ≠ (1 : Double) := by
  refine ⟨by decide!, by decide!, by decide!⟩

/-! ## C5 -/

/-- C5 (amended): for any state vector n whose liquid mass SumLiquidMW(n) is zero, GetFunctions
    reports no failure (it has no liquid-volume floor): it returns normally, every concentration
    it stores and hands to the kinetics object is a quotient by the zero (or undefined) liquid
    volume and hence not a number, and the vector it returns is R * (V_L * 1000) computed from
    that status, with V_L * 1000 equal to zero or not a number. -/
theorem GetFunctions_zero_liquid (ptPE : PolyethyleneKinetics K)
    (tg_ : ThermogravimetricAnalysis) (w : World K) (t : Double) (n : VectorXd)
    (hzero : ptPE.SumLiquidMW w.ptPE n = 0) :
    let V := (ptPE.SumLiquidMW w.ptPE n / 1000) / ptPE.LiquidDensity w.ptPE (tg_.T t) * 1000
    let kin := ptPE.FormationRates (ptPE.KineticConstants
      (ptPE.UpdateInitialAccelerationCoefficient
        (ptPE.SetStatus w.ptPE (tg_.T t) (tg_.P t) (n.map (fun _ => Double.nonfinite)))
        V tg_.InitialMass))
    GetFunctions.outcome ptPE tg_ w t n = Outcome.returned (GetFunctions ptPE tg_ w t n) ∧
    (GetFunctions ptPE tg_ w t n).1.ode.c_ = n.map (fun _ => Double.nonfinite) ∧
    (GetFunctions ptPE tg_ w t n).1.ptPE = kin ∧
    (GetFunctions ptPE tg_ w t n).2 = (ptPE.R kin).mulScalar V ∧
    (V = 0 ∨ V = Double.nonfinite) := by
  intro V kin
  have hV : V = 0 ∨ V = Double.nonfinite := by
    show (ptPE.SumLiquidMW w.ptPE n / 1000) / ptPE.LiquidDensity w.ptPE (tg_.T t) * 1000 = 0 ∨
      (ptPE.SumLiquidMW w.ptPE n / 1000) / ptPE.LiquidDensity w.ptPE (tg_.T t) * 1000 =
        Double.nonfinite
    rw [hzero]
    exact Double.zero_volume _
  have hc : n.divScalar V = n.map (fun _ => Double.nonfinite) := by
    unfold VectorXd.divScalar
    apply List.map_congr_left
    intro x _
    rcases hV with h | h
    · rw [h]
      exact Double.div_zero x
    · rw [h]
      exact Double.div_nonfinite x
  refine ⟨rfl, hc, ?_, ?_, hV⟩
  · show ptPE.FormationRates (ptPE.KineticConstants (ptPE.UpdateInitialAccelerationCoefficient
      (ptPE.SetStatus w.ptPE (tg_.T t) (tg_.P t) (n.divScalar V)) V tg_.InitialMass)) = kin
    rw [hc]
  · show (ptPE.R (ptPE.FormationRates (ptPE.KineticConstants
      (ptPE.UpdateInitialAccelerationCoefficient
        (ptPE.SetStatus w.ptPE (tg_.T t) (tg_.P t) (n.divScalar V)) V tg_.InitialMass)))).mulScalar
        V = (ptPE.R kin).mulScalar V
    rw [hc]

/-- C5 at an explicit input: boundary 2, one mole of gas-phase paraffin of chain length 1 and no
    liquid species. -/
theorem GetFunctions_zero_liquid_witness :
    demoKinetics.SumLiquidMW (demoWorld 2).ptPE [1, 0, 0, 0, 0, 0] = 0 ∧
    (GetFunctions demoKinetics demoRamp (demoWorld 2) 0 [1, 0, 0, 0, 0, 0]).1.ode.c_ =
      [Double.nonfinite, Double.nonfinite, Double.nonfinite,
       Double.nonfinite, Double.nonfinite, Double.nonfinite] :=
  ⟨by decide!,
    (GetFunctions_zero_liquid demoKinetics demoRamp (demoWorld 2) 0 [1, 0, 0, 0, 0, 0]
      (by decide!)).2.1⟩

/-- C5 as stated fails: with boundary 2, one mole of gas-phase paraffin of chain length 1 and
    all liquid-phase species zero, the liquid mass and V_L * 1000 are zero, yet GetFunctions
    reports no failure: it returns a derivative none of whose entries is a number, computed from
    concentrations none of which is a number. -/
theorem GetFunctions_no_floor :
    demoKinetics.SumLiquidMW (demoWorld 2).ptPE [1, 0, 0, 0, 0, 0] = 0 ∧
    (∀ reason : String,
      GetFunctions.outcome demoKinetics demoRamp (demoWorld 2) 0 [1, 0, 0, 0, 0, 0] ≠
        Outcome.failed reason) ∧
    (GetFunctions demoKinetics demoRamp (demoWorld 2) 0 [1, 0, 0, 0, 0, 0]).1.ptPE.c =
      [Double.nonfinite, Double.nonfinite, Double.nonfinite,
       Double.nonfinite, Double.nonfinite, Double.nonfinite] ∧
    (GetFunctions demoKinetics demoRamp (demoWorld 2) 0 [1, 0, 0, 0, 0, 0]).2 =
      [Double.nonfinite, Double.nonfinite, Double.nonfinite,
       Double.nonfinite, Double.nonfinite, Double.nonfinite] := by
  refine ⟨by decide!, ?_, by decide!, by decide!⟩
  intro reason h
  simp [GetFunctions.outcome] at h

/-! ## C7 -/

/-- C8: GetFunctions never changes the reporting state or the phase boundary: after
    GetFunctions(t, n, ·) the step counter is unchanged, no record has been appended to the
    mass-basis or mole-basis stream, nothing was written to the console, and the phase boundary
    MinNumberOfUnits is unchanged (the kinetics methods it calls leave the boundary alone;
    GetFunctions itself never calls SetMinNumberOfUnits). -/
theorem GetFunctions_frame (ptPE : PolyethyleneKinetics K) (tg_ : ThermogravimetricAnalysis)
    (hkeep : KeepsBoundary ptPE) (w : World K) (t : Double) (n : VectorXd) :
    (GetFunctions ptPE tg_ w t n).1.ode.step_ = w.ode.step_ ∧
    (GetFunctions ptPE tg_ w t n).1.ode.fDistMass_ = w.ode.fDistMass_ ∧
    (GetFunctions ptPE tg_ w t n).1.ode.fDistMoles_ = w.ode.fDistMoles_ ∧
    (GetFunctions ptPE tg_ w t n).1.cout = w.cout ∧
    ptPE.MinNumberOfUnits (GetFunctions ptPE tg_ w t n).1.ptPE =
      ptPE.MinNumberOfUnits w.ptPE := by
  refine ⟨rfl, rfl, rfl, rfl, ?_⟩
  simp only [GetFunctions, hkeep.formationRates, hkeep.kineticConstants,
    hkeep.updateInitialAccelerationCoefficient, hkeep.setStatus]

/-- C8 at an explicit input: a derivative evaluation at t = 1 in a world with boundary 1. -/
theorem GetFunctions_frame_witness :
    KeepsBoundary demoKinetics ∧
    (GetFunctions demoKinetics demoRamp (demoWorld 1) 1 [0, 0, 1]).1.ode.step_ = 0 ∧
    (GetFunctions demoKinetics demoRamp (demoWorld 1) 1 [0, 0, 1]).1.ode.fDistMass_ = [] ∧
    (GetFunctions demoKinetics demoRamp (demoWorld 1) 1 [0, 0, 1]).1.ode.fDistMoles_ = [] ∧
    (GetFunctions demoKinetics demoRamp (demoWorld 1) 1 [0, 0, 1]).1.cout = [] ∧
    demoKinetics.MinNumberOfUnits
      (GetFunctions demoKinetics demoRamp (demoWorld 1) 1 [0, 0, 1]).1.ptPE = 1 :=
  ⟨⟨fun _ _ _ _ => rfl, fun _ _ _ => rfl, fun _ => rfl, fun _ => rfl⟩,
    GetFunctions_frame demoKinetics demoRamp
      ⟨fun _ _ _ _ => rfl, fun _ _ _ => rfl, fun _ => rfl, fun _ => rfl⟩ (demoWorld 1) 1 [0, 0, 1]⟩

/-! ## C9 -/

theorem runCalls_numbering (ptPE : PolyethyleneKinetics K) (tg_ : ThermogravimetricAnalysis)
    (cs : List Call) :
    ∀ w : World K,
      (runCalls ptPE tg_ w cs).ode.step_ = w.ode.step_ + countPrintSteps cs ∧
      (runCalls ptPE tg_ w cs).ode.fDistMass_.map Record.step =
        w.ode.fDistMass_.map Record.step ++
          (List.range (countPrintSteps cs)).map (fun i => w.ode.step_ + ((i : Nat) : Int) + 1) ∧
      (runCalls ptPE tg_ w cs).ode.fDistMoles_.map Record.step =
        w.ode.fDistMoles_.map Record.step ++
          (List.range (countPrintSteps cs)).map (fun i => w.ode.step_ + ((i : Nat) : Int) + 1) := by
  induction cs with
  | nil => intro w; simp [runCalls, countPrintSteps]
  | cons c rest ih =>
    intro w
    cases c with
    | getFunctions t n =>
      have h := ih (GetFunctions ptPE tg_ w t n).1
      simpa [runCalls, Call.apply, countPrintSteps, GetFunctions] using h
    | printStep t n dn =>
      have h := ih (PrintStep ptPE tg_ w t n dn)
      simp only [PrintStep_ode] at h
      simp only [runCalls, List.foldl_cons, Call.apply, countPrintSteps] at h ⊢
      obtain ⟨h1, h2, h3⟩ := h
      refine ⟨?_, ?_, ?_⟩
      · rw [h1]; push_cast; ring
      · rw [h2, List.range_succ_eq_map]
        simp [PrintStep.massRecord, List.map_map, Function.comp_def]
        intro a _
        ring
      · rw [h3, List.range_succ_eq_map]
        simp [PrintStep.molesRecord, List.map_map, Function.comp_def]
        intro a _
        ring

theorem OfStream.insert_good (s : OfStream) (l : FileLine)
    (ho : s.is_open = true) (hf : s.fail = false) :
    s.insert l = { s with content := s.content ++ [l] } := by
  simp [OfStream.insert, ho, hf]

/-- While both files are open and good, every record inserted into a stream reaches its file. -/
theorem runCalls_files (ptPE : PolyethyleneKinetics K) (tg_ : ThermogravimetricAnalysis)
    (cs : List Call) :
    ∀ w : World K,
      w.ode.fDistMass_file.is_open = true → w.ode.fDistMass_file.fail = false →
      w.ode.fDistMoles_file.is_open = true → w.ode.fDistMoles_file.fail = false →
      ∃ am ax : List Record,
        (runCalls ptPE tg_ w cs).ode.fDistMass_ = w.ode.fDistMass_ ++ am ∧
        (runCalls ptPE tg_ w cs).ode.fDistMass_file =
          { w.ode.fDistMass_file with
            content := w.ode.fDistMass_file.content ++ am.map FileLine.row } ∧
        (runCalls ptPE tg_ w cs).ode.fDistMoles_ = w.ode.fDistMoles_ ++ ax ∧
        (runCalls ptPE tg_ w cs).ode.fDistMoles_file =
          { w.ode.fDistMoles_file with
            content := w.ode.fDistMoles_file.content ++ ax.map FileLine.row } := by
  induction cs with
  | nil =>
    intro w _ _ _ _
    exact ⟨[], [], by simp [runCalls], by simp [runCalls], by simp [runCalls],
      by simp [runCalls]⟩
  | cons c rest ih =>
    intro w hmo hmf hxo hxf
    cases c with
    | getFunctions t n =>
      obtain ⟨am, ax, h1, h2, h3, h4⟩ := ih (GetFunctions ptPE tg_ w t n).1 hmo hmf hxo hxf
      exact ⟨am, ax, h1, h2, h3, h4⟩
    | printStep t n dn =>
      have hm : (PrintStep ptPE tg_ w t n dn).ode.fDistMass_file =
          { w.ode.fDistMass_file with
            content := w.ode.fDistMass_file.content ++
              [FileLine.row (PrintStep.massRecord ptPE tg_ w t n)] } := by
        rw [PrintStep_ode]
        exact OfStream.insert_good _ _ hmo hmf
      have hx : (PrintStep ptPE tg_ w t n dn).ode.fDistMoles_file =
          { w.ode.fDistMoles_file with
            content := w.ode.fDistMoles_file.content ++
              [FileLine.row (PrintStep.molesRecord ptPE tg_ w t n)] } := by
        rw [PrintStep_ode]
        exact OfStream.insert_good _ _ hxo hxf
      obtain ⟨am, ax, h1, h2, h3, h4⟩ := ih (PrintStep ptPE tg_ w t n dn)
        (by rw [hm]; exact hmo) (by rw [hm]; exact hmf)
        (by rw [hx]; exact hxo) (by rw [hx]; exact hxf)
      refine ⟨PrintStep.massRecord ptPE tg_ w t n :: am,
        PrintStep.molesRecord ptPE tg_ w t n :: ax, ?_, ?_, ?_, ?_⟩
      · show (runCalls ptPE tg_ (PrintStep ptPE tg_ w t n dn) rest).ode.fDistMass_ = _
        rw [h1, PrintStep_ode]
        simp
      · show (runCalls ptPE tg_ (PrintStep ptPE tg_ w t n dn) rest).ode.fDistMass_file = _
        rw [h2, hm]
        simp
      · show (runCalls ptPE tg_ (PrintStep ptPE tg_ w t n dn) rest).ode.fDistMoles_ = _
        rw [h3, PrintStep_ode]
        simp
      · show (runCalls ptPE tg_ (PrintStep ptPE tg_ w t n dn) rest).ode.fDistMoles_file = _
        rw [h4, hx]
        simp

/-- C9 (amended): starting from a freshly constructed PE_ODESystemObject (step counter 0) whose
    two files PrepareOutputFiles has opened, after any sequence of GetFunctions and PrintStep
    calls the step counter equals the number of PrintStep calls made and each file holds its
    header line followed by exactly the records inserted so far, with step indices 1, 2, 3, ...
    in order; the next PrintStep call, the k-th with k <= 2^31 - 1, increments the counter by
    exactly 1, keeps it within the range of `int`, and appends exactly one record to the
    mass-basis file and exactly one to the mole-basis file, both with step index k. -/
theorem record_numbering (ptPE : PolyethyleneKinetics K) (tg_ : ThermogravimetricAnalysis)
    (k0 : K) (cout0 : List ConsoleItem) (cs : List Call) (t : Double) (n dn : VectorXd)
    (hk : countPrintSteps cs + 1 ≤ 2147483647) :
    let w0 : World K :=
      { ode := (PE_ODESystemObject.new ptPE k0).PrepareOutputFiles true true
        ptPE := k0
        cout := cout0 }
    let w := runCalls ptPE tg_ w0 cs
    let w1 := PrintStep ptPE tg_ w t n dn
    let k : Int := ((countPrintSteps cs + 1 : Nat) : Int)
    w.ode.step_ = ((countPrintSteps cs : Nat) : Int) ∧
    w.ode.fDistMass_file.content =
      FileLine.header massTitles :: w.ode.fDistMass_.map FileLine.row ∧
    w.ode.fDistMoles_file.content =
      FileLine.header molesTitles :: w.ode.fDistMoles_.map FileLine.row ∧
    w.ode.fDistMass_.map Record.step =
      (List.range (countPrintSteps cs)).map (fun i => ((i : Nat) : Int) + 1) ∧
    w.ode.fDistMoles_.map Record.step =
      (List.range (countPrintSteps cs)).map (fun i => ((i : Nat) : Int) + 1) ∧
    w1.ode.step_ = w.ode.step_ + 1 ∧
    w1.ode.step_ = k ∧
    w1.ode.step_ ≤ 2147483647 ∧
    ∃ rm rx : Record,
      w1.ode.fDistMass_file.content = w.ode.fDistMass_file.content ++ [FileLine.row rm] ∧
      rm.step = k ∧
      w1.ode.fDistMoles_file.content = w.ode.fDistMoles_file.content ++ [FileLine.row rx] ∧
      rx.step = k := by
  intro w0 w w1 k
  obtain ⟨h1, h2, h3⟩ := runCalls_numbering ptPE tg_ cs w0
  obtain ⟨am, ax, f1, f2, f3, f4⟩ := runCalls_files ptPE tg_ cs w0 rfl rfl rfl rfl
  have hs : w.ode.step_ = ((countPrintSteps cs : Nat) : Int) := by
    show (runCalls ptPE tg_ w0 cs).ode.step_ = _
    rw [h1]
    simp [w0, PE_ODESystemObject.new, PE_ODESystemObject.PrepareOutputFiles]
  have hs1 : w1.ode.step_ = w.ode.step_ + 1 := by
    show (PrintStep ptPE tg_ w t n dn).ode.step_ = _
    rw [PrintStep_ode]
  have hsk : w1.ode.step_ = k := by
    rw [hs1, hs]
    simp [k]
  have hmo : w.ode.fDistMass_file.is_open = true ∧ w.ode.fDistMass_file.fail = false := by
    show (runCalls ptPE tg_ w0 cs).ode.fDistMass_file.is_open = true ∧
      (runCalls ptPE tg_ w0 cs).ode.fDistMass_file.fail = false
    rw [f2]
    exact ⟨rfl, rfl⟩
  have hxo : w.ode.fDistMoles_file.is_open = true ∧ w.ode.fDistMoles_file.fail = false := by
    show (runCalls ptPE tg_ w0 cs).ode.fDistMoles_file.is_open = true ∧
      (runCalls ptPE tg_ w0 cs).ode.fDistMoles_file.fail = false
    rw [f4]
    exact ⟨rfl, rfl⟩
  refine ⟨hs, ?_, ?_, ?_, ?_, hs1, hsk, ?_, PrintStep.massRecord ptPE tg_ w t n,
    PrintStep.molesRecord ptPE tg_ w t n, ?_, ?_, ?_, ?_⟩
  · show (runCalls ptPE tg_ w0 cs).ode.fDistMass_file.content =
      FileLine.header massTitles :: (runCalls ptPE tg_ w0 cs).ode.fDistMass_.map FileLine.row
    rw [f2, f1]
    rfl
  · show (runCalls ptPE tg_ w0 cs).ode.fDistMoles_file.content =
      FileLine.header molesTitles :: (runCalls ptPE tg_ w0 cs).ode.fDistMoles_.map FileLine.row
    rw [f4, f3]
    rfl
  · show (runCalls ptPE tg_ w0 cs).ode.fDistMass_.map Record.step = _
    rw [h2]
    simp [w0, PE_ODESystemObject.new, PE_ODESystemObject.PrepareOutputFiles]
  · show (runCalls ptPE tg_ w0 cs).ode.fDistMoles_.map Record.step = _
    rw [h3]
    simp [w0, PE_ODESystemObject.new, PE_ODESystemObject.PrepareOutputFiles]
  · rw [hsk]
    show ((countPrintSteps cs + 1 : Nat) : Int) ≤ 2147483647
    exact_mod_cast hk
  · show (PrintStep ptPE tg_ w t n dn).ode.fDistMass_file.content = _
    rw [PrintStep_ode]
    show (w.ode.fDistMass_file.insert _).content = _
    rw [OfStream.insert_good _ _ hmo.1 hmo.2]
  · show w.ode.step_ + 1 = k
    rw [← hs1, hsk]
  · show (PrintStep ptPE tg_ w t n dn).ode.fDistMoles_file.content = _
    rw [PrintStep_ode]
    show (w.ode.fDistMoles_file.insert _).content = _
    rw [OfStream.insert_good _ _ hxo.1 hxo.2]
  · show w.ode.step_ + 1 = k
    rw [← hs1, hsk]

/-- C9 at an explicit trace: on the prepared object, after a derivative evaluation, one report
    and another derivative evaluation, the next report is the second: the counter becomes 2 and
    the mass-basis file holds the header and two records. -/
theorem record_numbering_witness :
    countPrintSteps demoCalls + 1 ≤ 2147483647 ∧
    (PrintStep demoKinetics demoRamp (runCalls demoKinetics demoRamp (demoPrepared 1) demoCalls)
      1 [0, 0, 1, 1, 0, 0] [0, 0, 0, 0, 0, 0]).ode.step_ = 2 ∧
    (PrintStep demoKinetics demoRamp (runCalls demoKinetics demoRamp (demoPrepared 1) demoCalls)
      1 [0, 0, 1, 1, 0, 0] [0, 0, 0, 0, 0, 0]).ode.fDistMass_file.content.length = 3 :=
  ⟨by decide,
    (record_numbering demoKinetics demoRamp (demoState 1) [] demoCalls 1 [0, 0, 1, 1, 0, 0]
      [0, 0, 0, 0, 0, 0] (by decide)).2.2.2.2.2.2.1,
    by decide!⟩

/-- C9 as stated fails: on the freshly constructed object no file is open, so the first
    PrintStep call increments the step counter to 1 but appends no record to the mass-basis
    file and none to the mole-basis file; both stay empty and the streams are left failed. -/
theorem record_numbering_fails :
    (demoWorld 1).ode = PE_ODESystemObject.new demoKinetics (demoState 1) ∧
    (PrintStep demoKinetics demoRamp (demoWorld 1) 0 [0, 0, 1, 1, 0, 0]
      [0, 0, 0, 0, 0, 0]).ode.step_ = 1 ∧
    (PrintStep demoKinetics demoRamp (demoWorld 1) 0 [0, 0, 1, 1, 0, 0]
      [0, 0, 0, 0, 0, 0]).ode.fDistMass_file =
        { is_open := false, fail := true, content := [] } ∧
    (PrintStep demoKinetics demoRamp (demoWorld 1) 0 [0, 0, 1, 1, 0, 0]
      [0, 0, 0, 0, 0, 0]).ode.fDistMoles_file =
        { is_open := false, fail := true, content := [] } := by
  refine ⟨rfl, by decide!, by decide!, by decide!⟩

/-! ## C10 -/

/-- C10: the two entry points agree on the concentration basis: for every t and n under the
    same kinetics state, the concentration vector PrintStep stores, n / (mL / rho), equals
    componentwise the one GetFunctions stores, n / (((mL / 1000) / rho) * 1000), where
    mL = SumLiquidMW(n) and rho = LiquidDensity(T(t)). -/
theorem concentration_basis (ptPE : PolyethyleneKinetics K) (tg_ : ThermogravimetricAnalysis)
    (w : World K) (t : Double) (n dn : VectorXd) :
    let mL := ptPE.SumLiquidMW w.ptPE n
    let rho := ptPE.LiquidDensity w.ptPE (tg_.T t)
    (PrintStep ptPE tg_ w t n dn).ode.c_ = n.map (fun n_i => n_i / (mL / rho)) ∧
    (GetFunctions ptPE tg_ w t n).1.ode.c_ =
      n.map (fun n_i => n_i / (((mL / 1000) / rho) * 1000)) ∧
    (PrintStep ptPE tg_ w t n dn).ode.c_ = (GetFunctions ptPE tg_ w t n).1.ode.c_ ∧
    ∀ i : Nat, (PrintStep ptPE tg_ w t n dn).ode.c_[i]? =
      (GetFunctions ptPE tg_ w t n).1.ode.c_[i]? := by
  intro mL rho
  have hP : (PrintStep ptPE tg_ w t n dn).ode.c_ = n.map (fun n_i => n_i / (mL / rho)) := by
    rw [PrintStep_ode]
    rfl
  have hG : (GetFunctions ptPE tg_ w t n).1.ode.c_ =
      n.map (fun n_i => n_i / (((mL / 1000) / rho) * 1000)) := rfl
  have hE : (PrintStep ptPE tg_ w t n dn).ode.c_ = (GetFunctions ptPE tg_ w t n).1.ode.c_ := by
    rw [hP, hG]
    apply List.map_congr_left
    intro x _
    exact Double.div_litres x mL rho
  exact ⟨hP, hG, hE, fun i => by rw [hE]⟩

end OpenSMOKEpp
